/-
Verification of the RoadSafetyGPT RAG pipeline (src/rag_engine.py and
src/data_processor.py) against its natural-language specification.

Python strings are modelled as lists of Unicode code points (`List Nat`).
External library objects (the gensim LDA model, the Chroma vector store,
the LLM and the retriever) are modelled as abstract oracle functions
carried in the engine record; fallible remote calls return `Except`.
-/
import Mathlib

set_option maxHeartbeats 1000000

namespace RoadSafetyGPT

/-- A Python string, as its list of Unicode code points. -/
abbrev Str := List Nat

/-- Embed a Lean string literal as a `Str` (list of code points). -/
def strOf (s : String) : Str := s.data.map Char.toNat

/-- Python whitespace characters (`str.strip` / regex `\s`, ASCII range):
space, tab, newline, carriage return, vertical tab, form feed. -/
def IsPyWS (c : Nat) : Prop :=
  c = 32 ∨ c = 9 ∨ c = 10 ∨ c = 13 ∨ c = 11 ∨ c = 12

instance (c : Nat) : Decidable (IsPyWS c) := by
  unfold IsPyWS; infer_instance

/-- Regex word character `\w` (ASCII range): letters, digits, underscore. -/
def IsWordChar (c : Nat) : Prop :=
  (97 ≤ c ∧ c ≤ 122) ∨ (65 ≤ c ∧ c ≤ 90) ∨ (48 ≤ c ∧ c ≤ 57) ∨ c = 95

instance (c : Nat) : Decidable (IsWordChar c) := by
  unfold IsWordChar; infer_instance

/-- Python `str.lower` on one code point (ASCII range). -/
def pyToLower (c : Nat) : Nat :=
  if 65 ≤ c ∧ c ≤ 90 then c + 32 else c

/-- Python `str.lstrip()`: drop leading whitespace. -/
def pyLStrip (s : Str) : Str := s.dropWhile (fun c => decide (IsPyWS c))

/-- Python `str.rstrip()`: drop trailing whitespace. -/
def pyRStrip (s : Str) : Str :=
  (s.reverse.dropWhile (fun c => decide (IsPyWS c))).reverse

/-- Python `str.strip()`: drop leading and trailing whitespace. -/
def pyStrip (s : Str) : Str := pyRStrip (pyLStrip s)

/-- Python `a.startswith(p)`. -/
def startsWithS (s p : Str) : Bool := p.isPrefixOf s

/-- Python `s.split('\n')`: split on every newline, keeping empty parts. -/
def splitOnNl : Str → List Str
  | [] => [[]]
  | c :: rest =>
    if c = 10 then [] :: splitOnNl rest
    else
      match splitOnNl rest with
      | [] => [[c]]
      | x :: xs => (c :: x) :: xs

/-- Python `'\n'.join(lines)`. -/
def joinNl (lines : List Str) : Str := List.intercalate [10] lines

/-- Maximal runs of non-whitespace characters, in order.
Modelled from the spec: NLTK `word_tokenize` is external library code not
under src/; on text containing only word characters and whitespace (the
regex `[^\w\s]` removal has already run) the spec describes it as
"tokenize on word boundaries", i.e. splitting on whitespace. -/
def splitWSAux : Str → Str → List Str
  | [], acc => if acc.isEmpty then [] else [acc.reverse]
  | c :: rest, acc =>
    if IsPyWS c then
      if acc.isEmpty then splitWSAux rest []
      else acc.reverse :: splitWSAux rest []
    else splitWSAux rest (c :: acc)

/-- Tokens are the maximal runs of non-whitespace characters, in order
(`splitWSAux` carries the reversed current run). -/
def splitWS (s : Str) : List Str := splitWSAux s []

/-- `data_processor.preprocess_text`: lowercase, delete every character
matching `[^\w\s]`, tokenize, and drop stop-words and length-≤1 tokens.
The NLTK English stop-word set is external data, passed as `stop_words`. -/
def preprocess_text (stop_words : List Str) (text : Str) : List Str :=
  let lowered := text.map pyToLower
  let cleaned := lowered.filter (fun c => decide (IsWordChar c ∨ IsPyWS c))
  let tokens := splitWS cleaned
  tokens.filter (fun w => decide (¬ w ∈ stop_words ∧ 1 < w.length))

/-- `data_processor.CHUNK_SIZE`. -/
def CHUNK_SIZE : Nat := 1000

/-- `data_processor.CHUNK_OVERLAP`. -/
def CHUNK_OVERLAP : Nat := 200

/-- Modelled from the spec: `RecursiveCharacterTextSplitter` (langchain)
is external library code not under src/; `split_documents` configures it
with `chunk_size=CHUNK_SIZE`, `chunk_overlap=CHUNK_OVERLAP`,
`length_function=len`. The spec describes the result on one document as
fixed 1000-character windows with 200 characters of overlap between
consecutive chunks, never crossing document boundaries. -/
def splitText (s : Str) : List Str :=
  if s.length ≤ CHUNK_SIZE then [s]
  else s.take CHUNK_SIZE :: splitText (s.drop (CHUNK_SIZE - CHUNK_OVERLAP))
termination_by s.length
decreasing_by
  simp only [List.length_drop, CHUNK_SIZE, CHUNK_OVERLAP] at *
  omega

/-- De-overlapping concatenation, from the spec's testable property:
keep the first chunk whole and drop the leading `CHUNK_OVERLAP` characters
of every later chunk before concatenating. -/
def deoverlapConcat : List Str → Str
  | [] => []
  | c :: cs => c ++ (cs.map (fun x => x.drop CHUNK_OVERLAP)).flatten

/-- A loaded document / retrieved chunk (langchain `Document`): only the
`page_content` field is read by the code under verification. -/
structure Doc where
  page_content : Str
deriving DecidableEq

/-- `data_processor.split_documents`: chunk each document independently
(chunks never cross document boundaries). -/
def split_documents (documents : List Doc) : List Doc :=
  documents.flatMap (fun d => (splitText d.page_content).map Doc.mk)

/-- Decimal representation of a natural number, as a `Str`
(Python `str(n)` inside an f-string). -/
def natStr (n : Nat) : Str := strOf (toString n)

/-- The pickled gensim `LdaModel` together with its `id2word` dictionary,
as abstract oracle functions: `doc2bow` is `id2word.doc2bow`, `topicDist`
is `lda_model[bow]` (the posterior topic distribution as a list of
(topic index, probability) pairs), `showTopic t n` is
`lda_model.show_topic(t, topn=n)`. -/
structure LdaModelT where
  doc2bow : List Str → List (Nat × Nat)
  topicDist : List (Nat × Nat) → List (Nat × Rat)
  showTopic : Nat → Nat → List (Str × Rat)

/-- Enrichment of one chunk's text, the loop body of
`RAGEngine._format_docs_with_topics` (src/rag_engine.py lines 138-154).
Python's `max(topic_dist, key=lambda x: x[1])` keeps the first element
whose key is maximal, modelled by the fold that replaces the best only on
a strictly greater key. -/
def enrichContent (lda_model : Option LdaModelT) (stop_words : List Str)
    (content : Str) : Str :=
  match lda_model with
  | none => content
  | some lda =>
    let tokens := (preprocess_text stop_words content).take 50
    let bow := lda.doc2bow tokens
    let topic_dist := lda.topicDist bow
    match topic_dist with
    | [] => content
    | t0 :: rest =>
      let dominant_topic := (rest.foldl (fun best y => if best.2 < y.2 then y else best) t0).1
      let topic_words := lda.showTopic dominant_topic 5
      let topic_summary :=
        strOf "Topic " ++ natStr (dominant_topic + 1) ++ strOf ": " ++
          List.intercalate (strOf ", ") (topic_words.map Prod.fst)
      strOf "[Topic Summary: " ++ topic_summary ++ strOf "]\n" ++ content

/-- `RAGEngine._format_docs_with_topics`: join the (possibly enriched)
chunk texts with a blank-line separator. -/
def formatDocsWithTopics (lda_model : Option LdaModelT) (stop_words : List Str)
    (docs : List Doc) : Str :=
  List.intercalate (strOf "\n\n")
    (docs.map (fun doc => enrichContent lda_model stop_words doc.page_content))

/-- The fixed not-initialized answer (src/rag_engine.py line 169). -/
def notInitializedMsg : Str :=
  strOf "RAG Engine is not initialized. Please ensure the vector store is built first."

/-- The error-answer marker (src/rag_engine.py line 204). -/
def queryErrorMark : Str := strOf "An error occurred during query execution: "

/-- The refusal phrase checked by the post-processing heuristic. -/
def refusalMark : Str := strOf "The provided context does not contain"

/-- The hedging marker checked on the second line. -/
def howeverMark : Str := strOf "However,"

/-- Post-processing of the LLM response content
(src/rag_engine.py lines 195-200): strip the response, and when it opens
with the refusal phrase and its second line (stripped) opens with
"However,", drop the first two lines and strip the remainder. -/
def postProcessAnswer (content : Str) : Str :=
  let answer := pyStrip content
  if startsWithS answer refusalMark then
    let lines := splitOnNl answer
    if 1 < lines.length ∧ startsWithS (pyStrip (lines.getD 1 [])) howeverMark then
      pyStrip (joinNl (lines.drop 2))
    else answer
  else answer

/-- The f-string prompt built inside `RAGEngine.query`
(src/rag_engine.py lines 179-193). -/
def comprehensivePrompt (context user_question : Str) : Str :=
  strOf "\nYou are RoadSafetyGPT, a specialized AI assistant for Indian road safety, traffic, and infrastructure codes.\nYour knowledge is grounded in IRC, MoRTH, and NCRB documents. Use the provided context if relevant, otherwise provide a comprehensive answer based on standard practices and guidelines.\n\nStructure your response with the following sections if applicable:\n- **Intervention**: Recommended actions or guidelines.\n- **Evidence**: Supporting facts or references from documents.\n- **Severity**: Potential risks or importance level.\n\nCONTEXT:\n" ++
    context ++ strOf "\n\nQUESTION: " ++ user_question ++ strOf "\nANSWER:\n"

/-- The query-time state of `RAGEngine`: `vector_store` records whether the
persisted index loaded (`None` in Python when loading failed), `retrieve`
is `self.retriever.invoke` (embedding the question remotely and searching
the index), `llm_invoke` is `self.llm.invoke` returning `response.content`;
both remote calls may raise, modelled as `Except` with the exception's
string rendering. `lda_model` is the pickled topic model if it loaded. -/
structure RAGEngine where
  vector_store : Option Unit
  retrieve : Str → Except Str (List Doc)
  llm_invoke : Str → Except Str Str
  lda_model : Option LdaModelT
  stop_words : List Str

/-- The body of the `try:` block of `RAGEngine.query`
(src/rag_engine.py lines 173-201): retrieve, format context with topics,
invoke the LLM on the comprehensive prompt, post-process. -/
def queryBody (e : RAGEngine) (user_question : Str) : Except Str (Str × List Doc) := do
  let docs ← e.retrieve user_question
  let context := formatDocsWithTopics e.lda_model e.stop_words docs
  let response ← e.llm_invoke (comprehensivePrompt context user_question)
  let answer := postProcessAnswer response
  pure (answer, docs)

/-- `RAGEngine.query` (src/rag_engine.py lines 157-204): guard on the
vector store, run the body, and convert any exception into an
error-message answer with an empty chunk list. -/
def RAGEngine.query (e : RAGEngine) (user_question : Str) : Str × List Doc :=
  if e.vector_store.isNone then
    (notInitializedMsg, [])
  else
    match queryBody e user_question with
    | .ok r => r
    | .error msg => (queryErrorMark ++ msg, [])

/-- `data_processor.NUM_TOPICS`. -/
def NUM_TOPICS : Nat := 3

/-- `data_processor.MAX_FEATURES`. -/
def MAX_FEATURES : Nat := 5000

/-- Number of documents of `docs` containing token `t`. -/
def docFreq (docs : List (List Str)) (t : Str) : Nat :=
  (docs.filter (fun d => decide (t ∈ d))).length

/-- Modelled from the spec: gensim `corpora.Dictionary` followed by
`filter_extremes(no_below=2, no_above=0.5)` is external library code not
under src/; the spec describes the result as the distinct surviving tokens
filtered to those appearing in at least 2 documents and in at most 50% of
documents. Ids are positions in this list. -/
def buildDictionary (docs : List (List Str)) : List Str :=
  (docs.flatten.dedup).filter
    (fun t => decide (2 ≤ docFreq docs t ∧ 2 * docFreq docs t ≤ docs.length))

/-- Modelled from the spec: gensim `Dictionary.doc2bow` is external
library code not under src/; it maps a token list to the (id, count)
pairs of the dictionary tokens that occur in it. -/
def doc2bowD (dictionary : List Str) (doc : List Str) : List (Nat × Nat) :=
  (dictionary.enum.map (fun p => (p.1, doc.count p.2))).filter
    (fun p => decide (0 < p.2))

/-- The error message sklearn raises on a corpus with no usable terms. -/
def emptyVocabMsg : Str :=
  strOf "empty vocabulary; perhaps the documents only contain stop words"

/-- Modelled from the spec: sklearn `CountVectorizer.fit_transform`
(max_features=MAX_FEATURES) is external library code not under src/; on an
empty corpus it raises a descriptive ValueError instead of producing a
model ("training on an empty corpus must fail with a descriptive error"),
otherwise it fits a vocabulary over the lowercased raw texts. -/
def cvFitTransform (texts : List Str) : Except Str (List Str) :=
  if texts.isEmpty then .error emptyVocabMsg
  else .ok (((texts.map (fun t => splitWS (t.map pyToLower))).flatten.dedup).take MAX_FEATURES)

/-- `data_processor.train_lda_model` (src/data_processor.py lines 102-132):
preprocess, build the dictionary and bag-of-words corpus, fit the
CountVectorizer on the raw texts (which raises on an empty corpus, before
the LDA fit), then fit the LDA model. The gensim `LdaModel` constructor is
abstracted as `ldaFit corpus id2word num_topics seed passes`; gensim uses
the given `random_state` as seed when one is passed and fresh process
entropy otherwise, and the source always passes `random_state=42`. -/
def train_lda_model {α : Type} (ldaFit : List (List (Nat × Nat)) → List Str → Nat → Nat → Nat → α)
    (entropy : Nat) (stop_words : List Str) (texts : List Str) :
    Except Str (α × List Str × List Str) := do
  let processed_texts := texts.map (preprocess_text stop_words)
  let dictionary := buildDictionary processed_texts
  let corpus := processed_texts.map (doc2bowD dictionary)
  let vocabulary ← cvFitTransform texts
  let random_state : Option Nat := some 42
  let lda_model := ldaFit corpus dictionary NUM_TOPICS (random_state.getD entropy) 10
  pure (lda_model, dictionary, vocabulary)

/-- C1: for every question string, if no vector store is loaded,
`RAGEngine.query` returns the fixed not-initialized message paired with an
empty chunk list. The result does not consult the retrieval or generation
oracles, and `query` is a total function, so it never raises. -/
theorem C1_query_not_initialized (e : RAGEngine) (q : Str)
    (h : e.vector_store = none) :
    e.query q = (notInitializedMsg, []) := by
  simp [RAGEngine.query, h]

/-- Witness for C1 on a concrete uninitialized engine. -/
theorem C1_witness :
    RAGEngine.query
      { vector_store := none
        retrieve := fun _ => Except.error (strOf "index missing")
        llm_invoke := fun _ => Except.ok (strOf "unused")
        lda_model := none
        stop_words := [] } (strOf "anything") = (notInitializedMsg, []) :=
  C1_query_not_initialized _ _ rfl

/-- C2: for every question and every exception raised inside the `try:`
body (retrieval, context formatting, generation or post-processing,
modelled by `queryBody` returning `Except.error`), `RAGEngine.query`
returns the error-message string paired with an empty chunk list.
`query` is a total function into `Str × List Doc`, so no exception ever
propagates to the caller. -/
theorem C2_query_catches_errors (e : RAGEngine) (q msg : Str)
    (h1 : e.vector_store = some ()) (h2 : queryBody e q = Except.error msg) :
    e.query q = (queryErrorMark ++ msg, []) := by
  simp [RAGEngine.query, h1, h2]

/-- Witness for C2: a concrete engine whose retrieval call raises. -/
theorem C2_witness :
    RAGEngine.query
      { vector_store := some ()
        retrieve := fun _ => Except.error (strOf "boom")
        llm_invoke := fun _ => Except.ok (strOf "unused")
        lda_model := none
        stop_words := [] } (strOf "q") = (queryErrorMark ++ strOf "boom", []) :=
  C2_query_catches_errors _ _ _ rfl rfl

/-- C7: training the topic model twice on identical input yields identical
results (topic model, dictionary and vectorizer): the source pins
`random_state=42`, so the fitted model is independent of the process
entropy that gensim would otherwise draw on, and the rest of the pipeline
is deterministic. -/
theorem C7_training_deterministic (α : Type)
    (ldaFit : List (List (Nat × Nat)) → List Str → Nat → Nat → Nat → α)
    (stop_words : List Str) (texts : List Str) (entropy1 entropy2 : Nat) :
    train_lda_model ldaFit entropy1 stop_words texts =
      train_lda_model ldaFit entropy2 stop_words texts := rfl

/-- C10: if a topic model is loaded but the posterior topic distribution
for the chunk's bag-of-words vector is empty, enrichment leaves the
chunk's text unmodified (and, being a total function, does not raise). -/
theorem C10_empty_dist_passthrough (lda : LdaModelT) (stop_words : List Str)
    (content : Str)
    (h : lda.topicDist (lda.doc2bow ((preprocess_text stop_words content).take 50)) = []) :
    enrichContent (some lda) stop_words content = content := by
  simp [enrichContent, h]

/-- Witness for C10: a concrete model mapping every vector to the empty
distribution. -/
theorem C10_witness :
    enrichContent (some ⟨fun _ => [], fun _ => [], fun _ _ => []⟩) []
      (strOf "zebra crossing") = strOf "zebra crossing" :=
  C10_empty_dist_passthrough _ _ _ rfl

/-- C9: on a successful query the returned chunk list is exactly the
retriever's output, unmodified; the topic-enriched context string appears
only inside the generation prompt (the argument of `llm_invoke`), never in
the returned chunks. -/
theorem C9_returns_retrieved_docs_unmodified (e : RAGEngine) (q resp : Str)
    (docs : List Doc)
    (h1 : e.vector_store = some ())
    (h2 : e.retrieve q = Except.ok docs)
    (h3 : e.llm_invoke
        (comprehensivePrompt (formatDocsWithTopics e.lda_model e.stop_words docs) q) =
      Except.ok resp) :
    e.query q = (postProcessAnswer resp, docs) := by
  simp [RAGEngine.query, queryBody, h1, h2, h3, Bind.bind, Except.bind, Functor.map, Except.map,
    Pure.pure, Except.pure]

/-- Witness for C9 on a concrete engine with one retrieved chunk. -/
theorem C9_witness :
    RAGEngine.query
      { vector_store := some ()
        retrieve := fun _ => Except.ok [⟨strOf "kerb ramp materials"⟩]
        llm_invoke := fun _ => Except.ok (strOf "IRC answer")
        lda_model := none
        stop_words := [] } (strOf "q") =
      (postProcessAnswer (strOf "IRC answer"), [⟨strOf "kerb ramp materials"⟩]) :=
  C9_returns_retrieved_docs_unmodified _ _ _ _ rfl rfl rfl

/-- Counterexample to C8: `RAGEngine.query` does not reject an empty
question before the remote calls. Two engines that differ only in the
generation oracle give different answers to the empty question, so the
result of `query ""` depends on the remote services — it cannot have been
rejected with a fixed descriptive error before any remote call. -/
theorem C8_counterexample :
    RAGEngine.query
      { vector_store := some ()
        retrieve := fun _ => Except.ok [⟨strOf "ctx"⟩]
        llm_invoke := fun _ => Except.ok (strOf "A")
        lda_model := none
        stop_words := [] } (strOf "") ≠
    RAGEngine.query
      { vector_store := some ()
        retrieve := fun _ => Except.ok [⟨strOf "ctx"⟩]
        llm_invoke := fun _ => Except.ok (strOf "B")
        lda_model := none
        stop_words := [] } (strOf "") := by
  decide

/-- C8 as amended: training the topic model on an empty corpus fails with
a descriptive error (raised by the bag-of-words vectorizer fit, before the
LDA model is fitted), rather than silently producing a degenerate model;
but an empty question is not specially rejected — `RAGEngine.query`
processes it through the normal retrieval and generation path. -/
theorem C8_amended_behavior :
    (∀ (α : Type)
        (ldaFit : List (List (Nat × Nat)) → List Str → Nat → Nat → Nat → α)
        (entropy : Nat) (stop_words : List Str),
        train_lda_model ldaFit entropy stop_words [] = Except.error emptyVocabMsg) ∧
    (∀ (e : RAGEngine) (docs : List Doc) (resp : Str),
        e.vector_store = some () →
        e.retrieve (strOf "") = Except.ok docs →
        e.llm_invoke (comprehensivePrompt
            (formatDocsWithTopics e.lda_model e.stop_words docs) (strOf "")) =
          Except.ok resp →
        e.query (strOf "") = (postProcessAnswer resp, docs)) := by
  constructor
  · intro α ldaFit entropy stop_words
    rfl
  · intro e docs resp h1 h2 h3
    simp [RAGEngine.query, queryBody, h1, h2, h3, Bind.bind, Except.bind,
      Functor.map, Except.map, Pure.pure, Except.pure]

/-- Witness for the amended C8: a concrete empty-corpus training run and a
concrete engine processing the empty question normally. -/
theorem C8_witness :
    train_lda_model (fun _ _ _ _ _ => ()) 0 [] [] = Except.error emptyVocabMsg ∧
    RAGEngine.query
      { vector_store := some ()
        retrieve := fun _ => Except.ok [⟨strOf "ctx"⟩]
        llm_invoke := fun _ => Except.ok (strOf "generated")
        lda_model := none
        stop_words := [] } (strOf "") =
      (postProcessAnswer (strOf "generated"), [⟨strOf "ctx"⟩]) :=
  ⟨C8_amended_behavior.1 Unit _ 0 [], C8_amended_behavior.2 _ _ _ rfl rfl rfl⟩

theorem splitText_eq (s : Str) :
    splitText s = if s.length ≤ CHUNK_SIZE then [s]
      else s.take CHUNK_SIZE :: splitText (s.drop (CHUNK_SIZE - CHUNK_OVERLAP)) := by
  rw [splitText]

theorem splitText_ne_nil (s : Str) : splitText s ≠ [] := by
  rw [splitText_eq]
  split <;> simp

theorem splitText_headq (s : Str) :
    (splitText s).head? = some (s.take CHUNK_SIZE) := by
  rw [splitText_eq]
  split
  · simp [List.take_of_length_le ‹_›]
  · simp

theorem splitText_chunk_lengths (s : Str) :
    ∀ c ∈ (splitText s).dropLast, c.length = CHUNK_SIZE := by
  induction s using splitText.induct with
  | case1 s h =>
    rw [splitText_eq, if_pos h]
    simp
  | case2 s h ih =>
    rw [splitText_eq, if_neg h]
    rw [List.dropLast_cons_of_ne_nil (splitText_ne_nil _)]
    intro c hc
    rcases List.mem_cons.mp hc with rfl | hc'
    · rw [List.length_take]
      omega
    · exact ih c hc'

theorem splitText_overlap (s : Str) :
    (splitText s).Chain' (fun a b =>
      a.drop (CHUNK_SIZE - CHUNK_OVERLAP) = b.take CHUNK_OVERLAP) := by
  induction s using splitText.induct with
  | case1 s h =>
    rw [splitText_eq, if_pos h]
    simp
  | case2 s h ih =>
    rw [splitText_eq, if_neg h]
    refine List.chain'_cons'.mpr ⟨?_, ih⟩
    intro b hb
    rw [splitText_headq, Option.mem_def, Option.some_inj] at hb
    subst hb
    show (s.take CHUNK_SIZE).drop (CHUNK_SIZE - CHUNK_OVERLAP) = _
    rw [List.drop_take, List.take_take]
    simp [CHUNK_SIZE, CHUNK_OVERLAP]

theorem splitText_flatten_drop (s : Str) :
    ((splitText s).map (fun c => c.drop CHUNK_OVERLAP)).flatten =
      s.drop CHUNK_OVERLAP := by
  induction s using splitText.induct with
  | case1 s h =>
    rw [splitText_eq, if_pos h]
    simp
  | case2 s h ih =>
    rw [splitText_eq, if_neg h]
    simp only [List.map_cons, List.flatten_cons, ih]
    rw [List.drop_take, List.drop_drop]
    show (s.drop CHUNK_OVERLAP).take (CHUNK_SIZE - CHUNK_OVERLAP) ++
        s.drop (CHUNK_OVERLAP + (CHUNK_SIZE - CHUNK_OVERLAP)) = _
    rw [← List.drop_drop, List.take_append_drop]

/-- C3: for every document text, all chunks except the last have exactly
`CHUNK_SIZE` (1000) characters; every pair of consecutive chunks overlaps
by exactly `CHUNK_OVERLAP` (200) characters (the last 200 characters of a
chunk are the first 200 of the next); and de-overlapped concatenation of
the chunks reconstructs the original text. -/
theorem C3_chunking (s : Str) :
    (∀ c ∈ (splitText s).dropLast, c.length = CHUNK_SIZE) ∧
    (splitText s).Chain' (fun a b =>
      a.drop (CHUNK_SIZE - CHUNK_OVERLAP) = b.take CHUNK_OVERLAP) ∧
    deoverlapConcat (splitText s) = s := by
  refine ⟨splitText_chunk_lengths s, splitText_overlap s, ?_⟩
  rw [splitText_eq]
  split
  · simp [deoverlapConcat]
  · rw [deoverlapConcat, splitText_flatten_drop, List.drop_drop]
    show s.take CHUNK_SIZE ++ s.drop (CHUNK_OVERLAP + (CHUNK_SIZE - CHUNK_OVERLAP)) = s
    have h2 : CHUNK_OVERLAP + (CHUNK_SIZE - CHUNK_OVERLAP) = CHUNK_SIZE := by
      simp [CHUNK_SIZE, CHUNK_OVERLAP]
    rw [h2, List.take_append_drop]

/-- Witness for C3 on a concrete 1200-character document, which splits
into a 1000-character chunk and a 400-character chunk. -/
theorem C3_witness :
    ((List.range 1200).take 1000).length = CHUNK_SIZE ∧
    deoverlapConcat (splitText (List.range 1200)) = List.range 1200 := by
  have h12 : splitText (List.range 1200) =
      [(List.range 1200).take CHUNK_SIZE,
        (List.range 1200).drop (CHUNK_SIZE - CHUNK_OVERLAP)] := by
    rw [splitText_eq, if_neg (by norm_num [CHUNK_SIZE]),
      splitText_eq, if_pos (by norm_num [CHUNK_SIZE, CHUNK_OVERLAP])]
  refine ⟨(C3_chunking (List.range 1200)).1 _ ?_, (C3_chunking (List.range 1200)).2.2⟩
  rw [h12]
  simp [CHUNK_SIZE]

theorem pyToLower_idem (c : Nat) : pyToLower (pyToLower c) = pyToLower c := by
  unfold pyToLower
  split_ifs <;> omega

theorem splitWSAux_sound (P : Nat → Prop) :
    ∀ (s acc : Str), (∀ c ∈ s, ¬ IsPyWS c → P c) → (∀ c ∈ acc, P c) →
      ∀ t ∈ splitWSAux s acc, ∀ c ∈ t, P c := by
  intro s
  induction s with
  | nil =>
    intro acc _ hacc t ht c hc
    rw [splitWSAux] at ht
    split at ht
    · simp at ht
    · rw [List.mem_singleton] at ht
      subst ht
      exact hacc c (List.mem_reverse.mp hc)
  | cons d rest ih =>
    intro acc hs hacc t ht c hc
    have hrest : ∀ c ∈ rest, ¬ IsPyWS c → P c :=
      fun c hc hw => hs c (List.mem_cons_of_mem _ hc) hw
    by_cases hd : IsPyWS d
    · rw [splitWSAux, if_pos hd] at ht
      split at ht
      · exact ih [] hrest (by simp) t ht c hc
      · rcases List.mem_cons.mp ht with rfl | ht'
        · exact hacc c (List.mem_reverse.mp hc)
        · exact ih [] hrest (by simp) t ht' c hc
    · rw [splitWSAux, if_neg hd] at ht
      refine ih (d :: acc) hrest ?_ t ht c hc
      intro c' hc'
      rcases List.mem_cons.mp hc' with rfl | hc''
      · exact hs c' (List.mem_cons_self _ _) hd
      · exact hacc c' hc''

/-- C6: every token produced by `preprocess_text` is absent from the
stop-word set, has length greater than 1, and consists only of word
characters that are fixed by lowercasing (no uppercase ASCII letters
survive). `preprocess_text` is a pure function of the stop-word set and
the text, hence deterministic. -/
theorem C6_preprocess_tokens (stop_words : List Str) (text : Str) (w : Str)
    (hw : w ∈ preprocess_text stop_words text) :
    w ∉ stop_words ∧ 1 < w.length ∧ ∀ c ∈ w, IsWordChar c ∧ pyToLower c = c := by
  simp only [preprocess_text] at hw
  rw [List.mem_filter, decide_eq_true_iff] at hw
  obtain ⟨hmem, hsw, hlen⟩ := hw
  refine ⟨hsw, hlen, ?_⟩
  intro c hc
  rw [splitWS] at hmem
  refine splitWSAux_sound (fun c => IsWordChar c ∧ pyToLower c = c) _ [] ?_ (by simp)
    w hmem c hc
  intro c' hc' hnws
  rw [List.mem_filter, decide_eq_true_iff] at hc'
  obtain ⟨hlow, hflt⟩ := hc'
  have hwc : IsWordChar c' := hflt.resolve_right hnws
  obtain ⟨c0, _, rfl⟩ := List.mem_map.mp hlow
  exact ⟨hwc, pyToLower_idem c0⟩

/-- Witness for C6 on a concrete text and stop-word set. -/
theorem C6_witness :
    strOf "hello" ∉ [strOf "the"] ∧ 1 < (strOf "hello").length ∧
      ∀ c ∈ strOf "hello", IsWordChar c ∧ pyToLower c = c :=
  C6_preprocess_tokens [strOf "the"] (strOf "Hello, the WORLD!") (strOf "hello")
    (by decide)

/-- Python's `max(list, key=...)` keeps the first element with maximal
key. On a distribution whose topic indices are strictly increasing, the
fold used by `enrichContent` returns an element of the list with maximal
probability, and among equal maximal probabilities the least topic index. -/
theorem pyMaxFold_spec (x : Nat × Rat) (xs : List (Nat × Rat))
    (hs : (x :: xs).Pairwise (fun a b => a.1 < b.1)) :
    (xs.foldl (fun best y => if best.2 < y.2 then y else best) x) ∈ x :: xs ∧
    (∀ q ∈ x :: xs, q.2 ≤ (xs.foldl (fun best y => if best.2 < y.2 then y else best) x).2) ∧
    (∀ q ∈ x :: xs, q.2 = (xs.foldl (fun best y => if best.2 < y.2 then y else best) x).2 →
      (xs.foldl (fun best y => if best.2 < y.2 then y else best) x).1 ≤ q.1) := by
  induction xs generalizing x with
  | nil => simp
  | cons z zs ih =>
    rw [List.pairwise_cons] at hs
    obtain ⟨hx, hs1⟩ := hs
    have hz := (List.pairwise_cons.mp hs1).1
    have hzs := (List.pairwise_cons.mp hs1).2
    rw [List.foldl_cons]
    by_cases hxz : x.2 < z.2
    · rw [if_pos hxz]
      have hs' : (z :: zs).Pairwise (fun a b => a.1 < b.1) := hs1
      obtain ⟨hm, hmax, htie⟩ := ih z hs'
      refine ⟨List.mem_cons_of_mem _ hm, ?_, ?_⟩
      · intro q hq
        rcases List.mem_cons.mp hq with rfl | hq'
        · exact le_trans (le_of_lt hxz) (hmax z (List.mem_cons_self _ _))
        · exact hmax q hq'
      · intro q hq he
        rcases List.mem_cons.mp hq with rfl | hq'
        · exact absurd he (ne_of_lt (lt_of_lt_of_le hxz (hmax z (List.mem_cons_self _ _))))
        · exact htie q hq' he
    · rw [if_neg hxz]
      have hzx : z.2 ≤ x.2 := le_of_not_lt hxz
      have hs' : (x :: zs).Pairwise (fun a b => a.1 < b.1) := by
        rw [List.pairwise_cons]
        exact ⟨fun b hb => hx b (List.mem_cons_of_mem _ hb), hzs⟩
      obtain ⟨hm, hmax, htie⟩ := ih x hs'
      have hxm : x.2 ≤ (zs.foldl (fun best y => if best.2 < y.2 then y else best) x).2 :=
        hmax x (List.mem_cons_self _ _)
      refine ⟨?_, ?_, ?_⟩
      · rcases List.mem_cons.mp hm with hm' | hm'
        · rw [hm']
          exact List.mem_cons_self _ _
        · exact List.mem_cons_of_mem _ (List.mem_cons_of_mem _ hm')
      · intro q hq
        rcases List.mem_cons.mp hq with rfl | hq'
        · exact hxm
        rcases List.mem_cons.mp hq' with rfl | hq''
        · exact le_trans hzx hxm
        · exact hmax q (List.mem_cons_of_mem _ hq'')
      · intro q hq he
        rcases List.mem_cons.mp hq with rfl | hq'
        · exact htie q (List.mem_cons_self _ _) he
        rcases List.mem_cons.mp hq' with rfl | hq''
        · have hxe : x.2 = (zs.foldl (fun best y => if best.2 < y.2 then y else best) x).2 :=
            le_antisymm hxm (he ▸ hzx)
          exact le_of_lt (lt_of_le_of_lt (htie x (List.mem_cons_self _ _) hxe)
            (hx q (List.mem_cons_self _ _)))
        · exact htie q (List.mem_cons_of_mem _ hq'') he

/-- C4: with no topic model loaded, formatting passes every chunk's text
through unmodified (and never raises, being total); with a model loaded
and a nonempty posterior distribution listed in increasing topic order
(as gensim returns it), enrichment selects the topic of maximal posterior
probability — ties broken by lowest topic index — and prefixes the chunk
text with the 1-based topic number and its top-5 words, computed from the
first 50 tokens of the preprocessed text. -/
theorem C4_topic_enrichment (lda : LdaModelT) (stop_words : List Str)
    (docs : List Doc) (content : Str)
    (hne : lda.topicDist (lda.doc2bow ((preprocess_text stop_words content).take 50)) ≠ [])
    (hsort : (lda.topicDist (lda.doc2bow ((preprocess_text stop_words content).take 50))).Pairwise
      (fun a b => a.1 < b.1)) :
    formatDocsWithTopics none stop_words docs =
      List.intercalate (strOf "\n\n") (docs.map Doc.page_content) ∧
    ∃ t p,
      (t, p) ∈ lda.topicDist (lda.doc2bow ((preprocess_text stop_words content).take 50)) ∧
      (∀ q ∈ lda.topicDist (lda.doc2bow ((preprocess_text stop_words content).take 50)),
        q.2 ≤ p) ∧
      (∀ q ∈ lda.topicDist (lda.doc2bow ((preprocess_text stop_words content).take 50)),
        q.2 = p → t ≤ q.1) ∧
      enrichContent (some lda) stop_words content =
        strOf "[Topic Summary: " ++
          (strOf "Topic " ++ natStr (t + 1) ++ strOf ": " ++
            List.intercalate (strOf ", ") ((lda.showTopic t 5).map Prod.fst)) ++
          strOf "]\n" ++ content := by
  constructor
  · simp [formatDocsWithTopics, enrichContent]
  · rcases hd : lda.topicDist (lda.doc2bow ((preprocess_text stop_words content).take 50)) with
      _ | ⟨d0, drest⟩
    · exact absurd hd hne
    obtain ⟨hm, hmax, htie⟩ := pyMaxFold_spec d0 drest (hd ▸ hsort)
    refine ⟨(drest.foldl (fun best y => if best.2 < y.2 then y else best) d0).1,
      (drest.foldl (fun best y => if best.2 < y.2 then y else best) d0).2, ?_, ?_, ?_, ?_⟩
    · simpa using hm
    · exact hmax
    · exact htie
    · simp only [enrichContent]
      rw [hd]

/-- Witness for C4: a concrete model with a tie between topics 0 and 1,
resolved to topic 0. -/
theorem C4_witness :
    formatDocsWithTopics none [] [⟨strOf "chunk a"⟩] =
      List.intercalate (strOf "\n\n") ([Doc.mk (strOf "chunk a")].map Doc.page_content) ∧
    ∃ t p,
      (t, p) ∈ [((0 : Nat), (1 : Rat)), (1, 1), (2, 0)] ∧
      (∀ q ∈ [((0 : Nat), (1 : Rat)), (1, 1), (2, 0)], q.2 ≤ p) ∧
      (∀ q ∈ [((0 : Nat), (1 : Rat)), (1, 1), (2, 0)], q.2 = p → t ≤ q.1) ∧
      enrichContent
        (some ⟨fun _ => [], fun _ => [(0, 1), (1, 1), (2, 0)],
          fun _ _ => [(strOf "speed", 1), (strOf "limit", 1), (strOf "road", 1),
            (strOf "irc", 1), (strOf "lane", 1)]⟩) [] (strOf "x") =
        strOf "[Topic Summary: " ++
          (strOf "Topic " ++ natStr (t + 1) ++ strOf ": " ++
            List.intercalate (strOf ", ")
              (([((strOf "speed" : Str), (1 : Rat)), (strOf "limit", 1), (strOf "road", 1),
                (strOf "irc", 1), (strOf "lane", 1)]).map Prod.fst)) ++
          strOf "]\n" ++ strOf "x" :=
  C4_topic_enrichment
    ⟨fun _ => [], fun _ => [(0, 1), (1, 1), (2, 0)],
      fun _ _ => [(strOf "speed", 1), (strOf "limit", 1), (strOf "road", 1),
        (strOf "irc", 1), (strOf "lane", 1)]⟩
    [] [⟨strOf "chunk a"⟩] (strOf "x") (by decide) (by decide)

theorem startsWithS_iff (s p : Str) : startsWithS s p = true ↔ ∃ r, s = p ++ r := by
  unfold startsWithS
  induction p generalizing s with
  | nil => simp [List.isPrefixOf]
  | cons a as ih =>
    cases s with
    | nil => simp [List.isPrefixOf]
    | cons b bs =>
      simp only [List.isPrefixOf, Bool.and_eq_true, beq_iff_eq, ih, List.cons_append,
        List.cons.injEq]
      constructor
      · rintro ⟨rfl, r, rfl⟩
        exact ⟨r, rfl, rfl⟩
      · rintro ⟨r, rfl, rfl⟩
        exact ⟨rfl, r, rfl⟩

theorem pyRStrip_append (p r : Str)
    (hp : p.reverse.dropWhile (fun c => decide (IsPyWS c)) = p.reverse) :
    pyRStrip (p ++ r) = p ++ pyRStrip r := by
  unfold pyRStrip
  rw [List.reverse_append, List.dropWhile_append]
  split
  · rename_i hemp
    have hnil : r.reverse.dropWhile (fun c => decide (IsPyWS c)) = [] :=
      List.isEmpty_iff.mp hemp
    rw [hp, List.reverse_reverse, hnil]
    simp
  · rw [List.reverse_append, List.reverse_reverse]

theorem pyRStrip_isPre (t : Str) : ∃ q, t = pyRStrip t ++ q := by
  obtain ⟨pre, hpre⟩ := List.dropWhile_suffix (l := t.reverse)
    (p := fun c => decide (IsPyWS c))
  refine ⟨pre.reverse, ?_⟩
  rw [pyRStrip, ← List.reverse_append, hpre, List.reverse_reverse]

theorem startsWith_however_strip_iff (s : Str) :
    startsWithS (pyStrip s) howeverMark = true ↔
      startsWithS (pyLStrip s) howeverMark = true := by
  unfold pyStrip
  constructor
  · intro h
    rw [startsWithS_iff] at h ⊢
    obtain ⟨r, hr⟩ := h
    obtain ⟨q, hq⟩ := pyRStrip_isPre (pyLStrip s)
    exact ⟨r ++ q, by rw [hq, hr, List.append_assoc]⟩
  · intro h
    rw [startsWithS_iff] at h ⊢
    obtain ⟨r, hr⟩ := h
    rw [hr, pyRStrip_append howeverMark r (by decide)]
    exact ⟨pyRStrip r, rfl⟩

/-- C5: the answer post-processing drops the first two lines exactly when
the stripped answer begins with the refusal phrase and its second line,
after stripping leading whitespace, begins with "However," (the code
strips the second line on both sides before the check, which is
equivalent); otherwise the answer is returned with only surrounding
whitespace stripped. -/
theorem C5_postprocess (content : Str) :
    ((startsWithS (pyStrip content) refusalMark = true ∧
        1 < (splitOnNl (pyStrip content)).length ∧
        startsWithS (pyLStrip ((splitOnNl (pyStrip content)).getD 1 [])) howeverMark = true) →
      postProcessAnswer content =
        pyStrip (joinNl ((splitOnNl (pyStrip content)).drop 2))) ∧
    (¬ (startsWithS (pyStrip content) refusalMark = true ∧
        1 < (splitOnNl (pyStrip content)).length ∧
        startsWithS (pyLStrip ((splitOnNl (pyStrip content)).getD 1 [])) howeverMark = true) →
      postProcessAnswer content = pyStrip content) := by
  constructor
  · rintro ⟨h1, h2, h3⟩
    simp only [postProcessAnswer]
    rw [if_pos h1, if_pos ⟨h2, (startsWith_however_strip_iff _).mpr h3⟩]
  · intro hn
    simp only [postProcessAnswer]
    by_cases h1 : startsWithS (pyStrip content) refusalMark = true
    · rw [if_pos h1, if_neg ?_]
      intro hcon
      exact hn ⟨h1, hcon.1, (startsWith_however_strip_iff _).mp hcon.2⟩
    · rw [if_neg h1]

/-- Witness for C5: the spec's end-to-end scenario 4 answer is stripped of
its first two lines, and a plain answer is only whitespace-stripped. -/
theorem C5_witness :
    postProcessAnswer
        (strOf "The provided context does not contain the answer.\nHowever, generally speaking...\nUse IRC:67 thermoplastic paint.") =
      pyStrip (joinNl ((splitOnNl (pyStrip
        (strOf "The provided context does not contain the answer.\nHowever, generally speaking...\nUse IRC:67 thermoplastic paint."))).drop 2)) ∧
    postProcessAnswer (strOf " A plain answer. ") = pyStrip (strOf " A plain answer. ") :=
  ⟨(C5_postprocess _).1 (by decide), (C5_postprocess _).2 (by decide)⟩

end RoadSafetyGPT
